import Mathlib

/-!
Shallow embedding of the core of hpp-manipulation:
 * GraphPathValidation (src/graph-path-validation.cc)
 * ManipulationPlanner (src/manipulation-planner.cc)

External capabilities (constraint graph queries, collision validation, steering,
projection) are modelled as explicit environment records; machine reals
(value_type, a double) are modelled by Rat; C++ exceptions are modelled with
Except; the unbounded recursion of impl_validate on a re-constrained leaf path
is modelled with an explicit fuel parameter (none = no answer within fuel).
-/

namespace HppManip

/-! ## Graph path validation: data model -/

/-- A configuration, identified abstractly. -/
abbrev Config := Nat

/-- A constraint-graph node, identified abstractly. -/
abbrev GraphNode := Nat

/-- A leaf (non-PathVector) path as the validator observes it: its time range,
its configurations at both ends, and the optional ConstraintSet attached by
Path::constraints. The validator only ever evaluates a path at the ends of its
time range. -/
structure LeafPath where
  tmin : Rat
  tmax : Rat
  atMin : Config
  atMax : Config
  cs : Option Nat
deriving DecidableEq, Repr

/-- A path: either a leaf path or a PathVector (output size, ordered sub-paths),
mirroring the dynamic cast at the top of the PathPtr_t overload of
impl_validate. -/
inductive GPath where
  | leaf : LeafPath → GPath
  | pvec : Nat → List GPath → GPath

/-- `path->extract(std::make_pair(t, t))` on a leaf path with `t = tmin`:
the zero-length path sitting at the start configuration. -/
def extractPoint (p : LeafPath) : LeafPath :=
  ⟨p.tmin, p.tmin, p.atMin, p.atMin, p.cs⟩

/-- Capabilities consumed by GraphPathValidation: the collision-based path
validator `pathValidation_`, and the constraint graph `constraintGraph_`.
`getNode` returns `Except.error ()` when the lookup throws a std::logic_error
(no constraint-graph node contains the configuration). `collisionValidate`
returns the flag of PathValidation::validate plus the `pathNoCollision` output
argument. -/
structure ValidationEnv where
  collisionValidate : LeafPath → Bool → Bool × LeafPath
  getNode : Config → Except Unit (List GraphNode)
  getEdge : List GraphNode → List GraphNode → List (List Nat)
  pathConstraint : List Nat → Nat
  offsetFromConfig : Nat → Config → Nat
  isSatisfied : Nat → Config → Bool

/-- The try block of the leaf overload (graph-path-validation.cc lines 95-109):
computes origNodes and destNodes of the collision-shortened path and runs the
graph-consistency test against the original endpoints, with C++ short-circuit
evaluation. `Except.error ()` is the escape of a std::logic_error from getNode;
`Except.ok none` means the consistency test succeeded (the code then sets
`validPart = pathNoCollision` and returns false); `Except.ok (some (o, d))`
means control continues to the candidate-edge enumeration. -/
def leafTryBlock (env : ValidationEnv) (p pnc : LeafPath) :
    Except Unit (Option (List GraphNode × List GraphNode)) :=
  match env.getNode pnc.atMin with
  | Except.error _ => Except.error ()
  | Except.ok origNodes =>
    match env.getNode pnc.atMax with
    | Except.error _ => Except.error ()
    | Except.ok destNodes =>
      match env.getNode p.atMin with
      | Except.error _ => Except.error ()
      | Except.ok oldOrig =>
        if origNodes = oldOrig then
          match env.getNode p.atMax with
          | Except.error _ => Except.error ()
          | Except.ok oldDest =>
            if destNodes = oldDest then Except.ok none
            else Except.ok (some (origNodes, destNodes))
        else Except.ok (some (origNodes, destNodes))

/-- The forward loop of the PathVector overload (lines 59-70). `subs` is the
full sub-path list of the PathVector, `rem` the sub-paths still to examine,
`i` the rank of the head of `rem`. At the first invalid sub-path the code
builds a fresh PathVector and appends `path->pathAtRank(i)->copy()` once per
`v < i` (note: rank `i`, the invalid sub-path itself, not rank `v`), then the
valid part of the recursive call. -/
def forwardLoop (os : Nat) (subs : List GPath)
    (recur : GPath → Option (Bool × GPath)) :
    List GPath → Nat → Option (Bool × GPath)
  | [], _ => some (true, GPath.pvec os subs)
  | sub :: rem, i =>
    match recur sub with
    | none => none
    | some (true, _) => forwardLoop os subs recur rem (i + 1)
    | some (false, vp) =>
      some (false, GPath.pvec os (List.replicate i sub ++ [vp]))

/-- The reverse loop of the PathVector overload (lines 44-57): sub-paths are
examined from the last rank downwards; `rem` is the remaining sub-paths in
examination order (i.e. reversed), `k` counts how many have already been
examined, so at a failure the inner loop `for v = n-1; v > i; v--` appends
`pathAtRank(i)->copy()` exactly `k` times. -/
def reverseLoop (os : Nat) (subs : List GPath)
    (recur : GPath → Option (Bool × GPath)) :
    List GPath → Nat → Option (Bool × GPath)
  | [], _ => some (true, GPath.pvec os subs)
  | sub :: rem, k =>
    match recur sub with
    | none => none
    | some (true, _) => reverseLoop os subs recur rem (k + 1)
    | some (false, vp) =>
      some (false, GPath.pvec os (List.replicate k sub ++ [vp]))

/-- The candidate-edge loop of the leaf overload (lines 116-131). `rem` is
`possibleEdges` consumed from the back (the caller passes the reversed list).
On a candidate whose offset path constraint is satisfied at the new end, the
constraint is attached to `pathNoCollision` and the result of re-validating it
is returned with `false`, whatever its boolean was. When the loop exhausts,
`validPart = path->extract([tmin, tmin])`. -/
def edgeLoop (env : ValidationEnv) (recur : GPath → Option (Bool × GPath))
    (p pnc : LeafPath) : List (List Nat) → Option (Bool × GPath)
  | [] => some (false, GPath.leaf (extractPoint p))
  | es :: rem =>
    let c := env.offsetFromConfig (env.pathConstraint es) pnc.atMin
    if env.isSatisfied c pnc.atMax then
      match recur (GPath.leaf ⟨pnc.tmin, pnc.tmax, pnc.atMin, pnc.atMax, some c⟩) with
      | none => none
      | some (_, vp) => some (false, vp)
    else edgeLoop env recur p pnc rem

/-- The leaf overload of impl_validate (lines 77-132), parametrized by the
recursive entry point `recur`. -/
def leafCase (env : ValidationEnv) (recur : GPath → Bool → Option (Bool × GPath))
    (p : LeafPath) (reverse : Bool) : Option (Bool × GPath) :=
  match env.collisionValidate p reverse with
  | (true, _) => some (true, GPath.leaf p)
  | (false, pnc) =>
    match leafTryBlock env p pnc with
    | Except.error _ => some (false, GPath.leaf (extractPoint p))
    | Except.ok none => some (false, GPath.leaf pnc)
    | Except.ok (some (origNodes, destNodes)) =>
      edgeLoop env (fun q => recur q reverse) p pnc
        ((env.getEdge origNodes destNodes).reverse)

/-- GraphPathValidation::impl_validate, both overloads, with fuel for the
self-call on a re-constrained pathNoCollision (line 125); the PathVector
overload is the dispatch of the dynamic cast (line 80-82). -/
def implValidate (env : ValidationEnv) : Nat → GPath → Bool → Option (Bool × GPath)
  | 0, _, _ => none
  | Nat.succ fuel, GPath.pvec os subs, false =>
    forwardLoop os subs (fun q => implValidate env fuel q false) subs 0
  | Nat.succ fuel, GPath.pvec os subs, true =>
    reverseLoop os subs (fun q => implValidate env fuel q true) subs.reverse 0
  | Nat.succ fuel, GPath.leaf p, reverse =>
    leafCase env (fun q r => implValidate env fuel q r) p reverse

/-- GraphPathValidation::validate (lines 33-38): asserts the path and delegates
to impl_validate. -/
def validateGP (env : ValidationEnv) (fuel : Nat) (p : GPath) (reverse : Bool) :
    Option (Bool × GPath) :=
  implValidate env fuel p reverse

/-- "A performed getNode lookup inside the try block raised std::logic_error":
the disjunction follows the evaluation order of lines 96-100, including the
short-circuit of the && (the lookup at the original end is only performed when
the first comparison succeeded). -/
def nodeLookupRaises (env : ValidationEnv) (p pnc : LeafPath) : Prop :=
  env.getNode pnc.atMin = Except.error () ∨
  (∃ o, env.getNode pnc.atMin = Except.ok o ∧
    (env.getNode pnc.atMax = Except.error () ∨
     (∃ d, env.getNode pnc.atMax = Except.ok d ∧
       (env.getNode p.atMin = Except.error () ∨
        (env.getNode p.atMin = Except.ok o ∧
         env.getNode p.atMax = Except.error ())))))

/-! ### Concrete validator instances (used by witnesses and counterexamples) -/

/-- Sub-path p1 of the E3 scenario: fully collision-valid. -/
def p1c : LeafPath := ⟨0, 1, 10, 11, none⟩

/-- Sub-path p2 of the E3 scenario: collision-invalid halfway. -/
def p2c : LeafPath := ⟨0, 1, 11, 12, none⟩

/-- The valid first half of p2 returned by the collision validator. -/
def p2part : LeafPath := ⟨0, 1/2, 11, 15, none⟩

/-- Sub-path p3 of the E3 scenario. -/
def p3c : LeafPath := ⟨0, 1, 12, 13, none⟩

/-- Environment of the E3 scenario: p2 is collision-invalid halfway, every
configuration lies in the single constraint-graph node 0 (so the shortening of
p2 is a pure collision event on the same edge). -/
def envE3 : ValidationEnv :=
  ⟨fun p _ => if p = p2c then (false, p2part) else (true, p),
   fun _ => Except.ok [0],
   fun _ _ => [],
   fun _ => 0,
   fun c _ => c,
   fun _ _ => true⟩

/-- Environment in which collision validation always succeeds. -/
def envAllValid : ValidationEnv :=
  ⟨fun p _ => (true, p),
   fun _ => Except.ok [0],
   fun _ _ => [],
   fun _ => 0,
   fun c _ => c,
   fun _ _ => true⟩

/-- A leaf path whose collision-shortened part starts at configuration 99. -/
def pShort : LeafPath := ⟨0, 1/2, 99, 3, none⟩

/-- Environment in which collision validation shortens every path to pShort
and configuration 99 has no constraint-graph node (getNode throws). -/
def envNoNode : ValidationEnv :=
  ⟨fun _ _ => (false, pShort),
   fun c => if c = 99 then Except.error () else Except.ok [c],
   fun _ _ => [],
   fun _ => 0,
   fun c _ => c,
   fun _ _ => true⟩

/-! ## Manipulation planner: edge statistics (src/manipulation-planner.cc) -/

/-- Reason indices into `reasons_` (lines 58-66). The symbolic names come from
the planner header, which only declares the enum; its order is fixed by the
display strings of `reasons_` together with §4.5 of the documentation
(Modelled from the spec: the enum declaration itself is not under src). -/
def PROJ_REASON : Nat := 0

/-- Reason index of "[Fail] SteeringMethod". -/
def STEER_REASON : Nat := 1

/-- Reason index of "[Fail] Path validation returned length 0". -/
def PVAL_ZERO_REASON : Nat := 2

/-- Reason index of "[Fail] Path could not be projected". -/
def PPROJ_ZERO_REASON : Nat := 3

/-- Reason index of "[Info] Path could not be fully projected". -/
def PPROJ_SHORTER_REASON : Nat := 4

/-- Reason index of "[Info] Path could not be fully validated". -/
def PVAL_SHORTER_REASON : Nat := 5

/-- Reason index of "[Info] Extended partly". -/
def PARTLY_EXTENDED_REASON : Nat := 6

/-- One SuccessStatistics bin set: the success counter and one failure counter
per reason index. -/
structure SuccessStatistics where
  sName : String
  nbSuccess : Nat
  nbFailure : Nat → Nat

/-- A fresh SuccessStatistics, as built by `SuccessStatistics (name, 2)`. -/
def freshStats (n : String) : SuccessStatistics :=
  ⟨n, 0, fun _ => 0⟩

/-- SuccessStatistics::addSuccess. -/
def addSuccessS (s : SuccessStatistics) : SuccessStatistics :=
  ⟨s.sName, s.nbSuccess + 1, s.nbFailure⟩

/-- SuccessStatistics::addFailure for reason index r. -/
def addFailureS (s : SuccessStatistics) (r : Nat) : SuccessStatistics :=
  ⟨s.sName, s.nbSuccess, fun j => if j = r then s.nbFailure j + 1 else s.nbFailure j⟩

/-- The planner's statistics state: the sparse map `indexPerEdgeStatistics_`
(edge id to slot, -1 meaning never observed) and the dense slot vector
`perEdgeStatistics_`. -/
structure StatsState where
  indexPerEdgeStatistics : List Int
  perEdgeStatistics : List SuccessStatistics

/-- The empty statistics state of a fresh planner. -/
def emptyStats : StatsState := ⟨[], []⟩

/-- The resize statement of ManipulationPlanner::edgeStat (lines 318-320):
grow the sparse map to id + 1 entries, filling with -1. -/
def resizeIdx (s : StatsState) (id : Nat) : StatsState :=
  if s.indexPerEdgeStatistics.length ≤ id then
    ⟨s.indexPerEdgeStatistics ++
      List.replicate (id + 1 - s.indexPerEdgeStatistics.length) (-1),
     s.perEdgeStatistics⟩
  else s

/-- The registration statement of ManipulationPlanner::edgeStat (lines
321-325): on first observation, point the sparse map at a fresh slot appended
to the dense vector; return the state and the slot. -/
def edgeStatRegister (t : StatsState) (id : Nat) (nm : String) :
    StatsState × Nat :=
  if t.indexPerEdgeStatistics.getD id (-1) < 0 then
    (⟨t.indexPerEdgeStatistics.set id (Int.ofNat t.perEdgeStatistics.length),
      t.perEdgeStatistics ++ [freshStats nm]⟩,
     t.perEdgeStatistics.length)
  else (t, (t.indexPerEdgeStatistics.getD id (-1)).toNat)

/-- ManipulationPlanner::edgeStat (lines 314-326): resize the sparse map on
demand, register a fresh slot on first observation, return the updated state
and the slot of the edge. -/
def edgeStatIdx (s : StatsState) (id : Nat) (nm : String) : StatsState × Nat :=
  edgeStatRegister (resizeIdx s id) id nm

/-- StatsState update: addFailure on the bin at slot i. -/
def statAddFailure (s : StatsState) (i : Nat) (r : Nat) : StatsState :=
  ⟨s.indexPerEdgeStatistics,
   s.perEdgeStatistics.set i (addFailureS (s.perEdgeStatistics.getD i (freshStats "")) r)⟩

/-- StatsState update: addSuccess on the bin at slot i. -/
def statAddSuccess (s : StatsState) (i : Nat) : StatsState :=
  ⟨s.indexPerEdgeStatistics,
   s.perEdgeStatistics.set i (addSuccessS (s.perEdgeStatistics.getD i (freshStats "")))⟩

/-- ManipulationPlanner::getEdgeStat (lines 98-114). For a never-observed edge
the loop pushes six zeros; for an observed edge it pushes the success count
followed by the failure counts of the first six reasons (PARTLY_EXTENDED, the
seventh reason, is not reported). -/
def getEdgeStat (s : StatsState) (id : Nat) : List Nat :=
  if s.indexPerEdgeStatistics.length ≤ id ∨
      s.indexPerEdgeStatistics.getD id (-1) < 0 then
    List.replicate 6 0
  else
    let ss := s.perEdgeStatistics.getD
      (s.indexPerEdgeStatistics.getD id (-1)).toNat (freshStats "")
    ss.nbSuccess :: (List.range 6).map ss.nbFailure

/-- The sum of all entries of getEdgeStat for an edge id. -/
def statSum (s : StatsState) (id : Nat) : Nat :=
  (getEdgeStat s id).sum

/-- Well-formedness of the statistics state: every registered slot of the
sparse map points inside the dense vector (edgeStat maintains this). -/
def statsWF (s : StatsState) : Prop :=
  ∀ id : Nat, 0 ≤ s.indexPerEdgeStatistics.getD id (-1) →
    (s.indexPerEdgeStatistics.getD id (-1)).toNat < s.perEdgeStatistics.length

/-- Edge `id` is observed and registered at slot `i`. -/
def obsAt (s : StatsState) (id i : Nat) : Prop :=
  id < s.indexPerEdgeStatistics.length ∧
  s.indexPerEdgeStatistics.getD id (-1) = Int.ofNat i ∧
  i < s.perEdgeStatistics.length

/-! ## Manipulation planner: extend (lines 225-312) -/

/-- A path as the extend state machine observes it: its time range. length()
is the length of the range; extract produces the sub-range. -/
structure EPath where
  t0 : Rat
  t1 : Rat
deriving DecidableEq, Repr

/-- Path::length. -/
def EPath.lengthE (p : EPath) : Rat := p.t1 - p.t0

/-- Capabilities consumed by one run of ManipulationPlanner::extend, already
specialized to the chosen near node and random configuration. `chooseEdge` is
the edge sampled by the constraint graph for n_near (id and name), or none.
`projApply` returns the boolean of PathProjector::apply plus the projPath
output (a null projPath is modelled by a zero-length one, which lines 263-267
treat identically). `validatePath` is GraphPathValidation::validate together
with the report argument, raising `Except.error` on a projection_error, and
otherwise returning (fully valid?, fullValidPath). `extractPath` may raise a
projection_error as well (line 297-304). -/
structure ExtendEnv where
  chooseEdge : Option (Nat × String)
  applyConstraints : Config → Option Config
  build : Config → Config → Option EPath
  hasProjector : Bool
  projApply : EPath → Bool × EPath
  validatePath : EPath → Except Unit (Bool × EPath)
  extractPath : EPath → Rat → Rat → Except Unit EPath

/-- The tail of extend (lines 309-311): `if (!projShorter && fullValidPath)
es.addSuccess (); else es.addFailure (PARTLY_EXTENDED);` then return true
(fullValidPath is always non-null there). -/
def extendFinish (s : StatsState) (i : Nat) (projShorter : Bool) (vp : EPath) :
    StatsState × Bool × Option EPath :=
  (if projShorter then statAddFailure s i PARTLY_EXTENDED_REASON
   else statAddSuccess s i,
   true, some vp)

/-- The body of ManipulationPlanner::extend after an edge was chosen
(lines 240-311). -/
def extendBody (env : ExtendEnv) (extendStep : Rat) (s0 : StatsState)
    (qNear qRand : Config) (eid : Nat) (enm : String) :
    StatsState × Bool × Option EPath :=
    let reg := edgeStatIdx s0 eid enm
    let s1 := reg.1
    let i := reg.2
    match env.applyConstraints qRand with
    | none => (statAddFailure s1 i PROJ_REASON, false, none)
    | some qProj =>
      match env.build qNear qProj with
      | none => (statAddFailure s1 i STEER_REASON, false, none)
      | some path =>
        let pr := if env.hasProjector then env.projApply path else (true, path)
        let projShorter := ! pr.1
        let projPath := pr.2
        if projShorter ∧ projPath.lengthE = 0 then
          (statAddFailure s1 i PPROJ_ZERO_REASON, false, none)
        else
          let s2 := if projShorter then statAddFailure s1 i PPROJ_SHORTER_REASON
                    else s1
          match env.validatePath projPath with
          | Except.error _ => (statAddFailure s2 i PVAL_ZERO_REASON, false, none)
          | Except.ok (fullyValid, fullValidPath) =>
            if fullValidPath.lengthE = 0 then
              (statAddFailure s2 i PVAL_ZERO_REASON, false, some fullValidPath)
            else
              let s3 := if fullyValid then s2
                        else statAddFailure s2 i PVAL_SHORTER_REASON
              if extendStep = 1 ∨ fullyValid then
                extendFinish s3 i projShorter fullValidPath
              else
                match env.extractPath fullValidPath fullValidPath.t0
                    (fullValidPath.t0 + fullValidPath.lengthE * extendStep) with
                | Except.error _ =>
                  (statAddFailure s3 i PPROJ_SHORTER_REASON, false, none)
                | Except.ok vp => extendFinish s3 i projShorter vp

/-- ManipulationPlanner::extend (lines 225-312) as a function of the statistics
state; returns the new state, the boolean result, and the validPath output when
it was assigned. chooseEdge returning none aborts before any statistics record
is touched (lines 237-239). -/
def extend (env : ExtendEnv) (extendStep : Rat) (s0 : StatsState)
    (qNear qRand : Config) : StatsState × Bool × Option EPath :=
  match env.chooseEdge with
  | none => (s0, false, none)
  | some (eid, enm) => extendBody env extendStep s0 qNear qRand eid enm

/-- Extend environment of the E4 scenario: an edge is chosen, projection and
steering succeed, there is no path projector, and graph validation declares the
whole 2-second path valid. -/
def envE4 : ExtendEnv :=
  ⟨some (0, "e0"),
   fun q => some q,
   fun _ _ => some ⟨0, 2⟩,
   false,
   fun p => (true, p),
   fun p => Except.ok (true, p),
   fun _ a b => Except.ok ⟨a, b⟩⟩

/-- Extend environment in which graph validation keeps only the first second
of the built 2-second path (partially valid path, no projector). -/
def envPartial : ExtendEnv :=
  ⟨some (0, "e0"),
   fun q => some q,
   fun _ _ => some ⟨0, 2⟩,
   false,
   fun p => (true, p),
   fun p => Except.ok (false, ⟨p.t0, p.t0 + 1⟩),
   fun _ a b => Except.ok ⟨a, b⟩⟩

/-! ## ManipulationPlanner::create (lines 68-87) -/

/-- The message thrown when the roadmap null-check fires. -/
def roadmapTypeMsg : String :=
  "The roadmap must be of type hpp::manipulation::Roadmap."

/-- The message thrown when the roadmap null-check does not fire. -/
def problemTypeMsg : String :=
  "The problem must be of type hpp::manipulation::Problem."

/-- Inputs of create, abstracted over the dynamic types: whether the problem /
roadmap arguments are the manipulation specializations, and whether the base
class constructor raises when handed a null roadmap pointer (behavior of
hpp-core, external to this repository). -/
structure CreateArgs where
  problemIsManip : Bool
  roadmapIsManip : Bool
  ctorRaises : Bool

/-- ManipulationPlanner::create. `Except.ok b` means a planner was constructed
and returned, with `b` recording whether its roadmap pointer is non-null;
`Except.error m` means std::invalid_argument with message `m` was thrown.

Control flow of lines 68-87: the outer `RoadmapPtr_t r;` is declared and never
assigned, because the `RoadmapPtr_t r = HPP_DYNAMIC_PTR_CAST (Roadmap, r2);`
inside the try block declares a new variable shadowing it; the catch block
therefore always sees a null `r`. The reference dynamic_cast of the problem
throws std::bad_cast on a wrong problem type; the pointer dynamic cast of the
roadmap yields null without throwing. -/
def createPlanner (a : CreateArgs) : Except String Bool :=
  let outerR : Option Unit := none
  let tryBlock : Except Unit Bool :=
    if a.problemIsManip then
      let innerR := a.roadmapIsManip
      if a.ctorRaises ∧ innerR = false then Except.error ()
      else Except.ok innerR
    else Except.error ()
  match tryBlock with
  | Except.ok b => Except.ok b
  | Except.error _ =>
    if outerR = none then Except.error roadmapTypeMsg
    else Except.error problemTypeMsg

/-! ## oneStep extension loop (lines 145-180) -/

/-- A roadmap node as the extension loop observes it: its configuration, the
constraint-graph node it belongs to, and its connected component. -/
structure RNode where
  cfg : Int
  gnode : Nat
  cc : Nat
deriving DecidableEq, Repr

/-- Roadmap::nearestNode restricted to one connected component and one
constraint-graph node, over the current node list (closest configuration by
the metric |cfg - q|, first-inserted wins ties). -/
def nearestNode (nodes : List RNode) (q : Int) (cc gn : Nat) : Option RNode :=
  nodes.foldl
    (fun best n =>
      if n.cc = cc ∧ n.gnode = gn then
        match best with
        | none => some n
        | some b =>
          if (n.cfg - q).natAbs < (b.cfg - q).natAbs then some n else some b
      else best)
    none

/-- Environment of one extension step: `extendOk nearCfg nearGn` is the
endpoint configuration of the valid non-zero-length path produced by
extend for that near node (none when extend fails or the path has zero
length), and `gnodeOf` is the constraint-graph node the roadmap assigns to a
newly inserted configuration. -/
structure StepEnv where
  extendOk : Int → Nat → Option Int
  gnodeOf : Int → Nat

/-- Roadmap::addNodeAndEdges as the loop uses it: the new node joins the
connected component of the near node. -/
def addNodeAndEdges (nodes : List RNode) (ccOfNear : Nat) (q : Int) (g : Nat) :
    List RNode :=
  nodes ++ [⟨q, g, ccOfNear⟩]

/-- The inner extension loop of oneStep (lines 150-179) for one connected
component `cc`: iterate the graph nodes, query nearestNode on the CURRENT
roadmap, extend, and either insert immediately through addNodeAndEdges (new
configuration) or buffer a delayed edge (configuration already among
newNodes). Returns the roadmap node list, the newNodes configurations and the
delayed edges. -/
def extensionLoop (env : StepEnv) (qRand : Int) (cc : Nat) :
    List Nat → List RNode → List Int → List (Int × Int) →
    List RNode × List Int × List (Int × Int)
  | [], nodes, newNodes, delayed => (nodes, newNodes, delayed)
  | gn :: rest, nodes, newNodes, delayed =>
    match nearestNode nodes qRand cc gn with
    | none => extensionLoop env qRand cc rest nodes newNodes delayed
    | some near =>
      match env.extendOk near.cfg near.gnode with
      | none => extensionLoop env qRand cc rest nodes newNodes delayed
      | some qNew =>
        if qNew ∈ newNodes then
          extensionLoop env qRand cc rest nodes newNodes
            (delayed ++ [(near.cfg, qNew)])
        else
          extensionLoop env qRand cc rest
            (addNodeAndEdges nodes near.cc qNew (env.gnodeOf qNew))
            (newNodes ++ [qNew]) delayed

/-- The extension loop under the specification's reading of §5 "Ordering
guarantees": every nearestNode query observes the roadmap as it was at the
start of the step (`nodes0`), even though insertions still accumulate. -/
def extensionLoopSnapshot (env : StepEnv) (qRand : Int) (cc : Nat)
    (nodes0 : List RNode) :
    List Nat → List RNode → List Int → List (Int × Int) →
    List RNode × List Int × List (Int × Int)
  | [], nodes, newNodes, delayed => (nodes, newNodes, delayed)
  | gn :: rest, nodes, newNodes, delayed =>
    match nearestNode nodes0 qRand cc gn with
    | none => extensionLoopSnapshot env qRand cc nodes0 rest nodes newNodes delayed
    | some near =>
      match env.extendOk near.cfg near.gnode with
      | none => extensionLoopSnapshot env qRand cc nodes0 rest nodes newNodes delayed
      | some qNew =>
        if qNew ∈ newNodes then
          extensionLoopSnapshot env qRand cc nodes0 rest nodes newNodes
            (delayed ++ [(near.cfg, qNew)])
        else
          extensionLoopSnapshot env qRand cc nodes0 rest
            (addNodeAndEdges nodes near.cc qNew (env.gnodeOf qNew))
            (newNodes ++ [qNew]) delayed

/-- Step environment in which extending from the initial node (cfg 0, graph
node 0) produces configuration 5 lying in graph node 1, and extending from
configuration 5 in graph node 1 produces configuration 7. -/
def envStep : StepEnv :=
  ⟨fun c g =>
     if c = 0 ∧ g = 0 then some 5
     else if c = 5 ∧ g = 1 then some 7
     else none,
   fun q => if q = 5 ∨ q = 7 then 1 else 0⟩

/-- The roadmap at the start of the step of the C6 scenario. -/
def nodes0 : List RNode := [⟨0, 0, 0⟩]

/-! ## tryConnectToRoadmap (lines 328-383) -/

/-- The directed roadmap edges, as ordered pairs of node identifiers.
`n1->isOutNeighbor (n2)` is membership of (n1, n2); `n1->isInNeighbor (n2)` is
membership of (n2, n1). -/
abbrev EdgeSet := List (Nat × Nat)

/-- One addEdge event of tryConnectToRoadmap: the edge set right before the
call, and the source and destination of the added edge. -/
structure AddEvent where
  pre : EdgeSet
  src : Nat
  dst : Nat
deriving DecidableEq, Repr

/-- Capabilities consumed by tryConnectToRoadmap. Nodes are identifiers with a
connected component and a configuration; `ccList` is the iteration order of
roadmap()->connectedComponents(); `knearest q cc` is the K-nearest-neighbor
answer of the roadmap for component cc (the planner takes K = 7 of them);
`steer`, `projApply` and `validateOk` are the steering method, the optional
path projector and the path validation, on opaque path tokens. The node set
never changes during tryConnectToRoadmap, so these are fixed functions. -/
structure ConnEnv where
  ccOf : Nat → Nat
  cfgOf : Nat → Int
  ccList : List Nat
  knearest : Int → Nat → List Nat
  steer : Int → Int → Option Nat
  hasProjector : Bool
  projApply : Nat → Option Nat
  validateOk : Nat → Bool

/-- The innermost loop of tryConnectToRoadmap (lines 350-378): walk the
candidate list for a fixed new node n1, skipping pairs that are already
bidirectionally connected; at the first candidate that steers, projects and
validates, add the missing direction(s), count one connection, and stop with
connectSucceed = true. Each addEdge is also recorded as an AddEvent. -/
def tryCandidates (env : ConnEnv) (n1 : Nat) :
    List Nat → EdgeSet → Nat → List AddEvent →
    EdgeSet × Nat × List AddEvent × Bool
  | [], edges, nb, tr => (edges, nb, tr, false)
  | n2 :: rem, edges, nb, tr =>
    if (n1, n2) ∈ edges ∧ (n2, n1) ∈ edges then
      tryCandidates env n1 rem edges nb tr
    else
      match env.steer (env.cfgOf n1) (env.cfgOf n2) with
      | none => tryCandidates env n1 rem edges nb tr
      | some path =>
        match if env.hasProjector then env.projApply path else some path with
        | none => tryCandidates env n1 rem edges nb tr
        | some projPath =>
          if env.validateOk projPath then
            let step1 : EdgeSet × List AddEvent :=
              if (n1, n2) ∈ edges then (edges, tr)
              else (edges ++ [(n1, n2)], tr ++ [⟨edges, n1, n2⟩])
            let step2 : EdgeSet × List AddEvent :=
              if (n2, n1) ∈ edges then step1
              else (step1.1 ++ [(n2, n1)], step1.2 ++ [⟨step1.1, n2, n1⟩])
            (step2.1, nb + 1, step2.2, true)
          else tryCandidates env n1 rem edges nb tr

/-- The middle loop of tryConnectToRoadmap (lines 343-380): walk the connected
components, skipping the component of n1; take the K = 7 nearest nodes of each
other component; stop at the first component in which a connection succeeded. -/
def tryComponents (env : ConnEnv) (n1 : Nat) :
    List Nat → EdgeSet → Nat → List AddEvent →
    EdgeSet × Nat × List AddEvent
  | [], edges, nb, tr => (edges, nb, tr)
  | cc :: rem, edges, nb, tr =>
    if cc = env.ccOf n1 then tryComponents env n1 rem edges nb tr
    else
      match tryCandidates env n1 ((env.knearest (env.cfgOf n1) cc).take 7)
          edges nb tr with
      | (edges1, nb1, tr1, true) => (edges1, nb1, tr1)
      | (edges1, nb1, tr1, false) => tryComponents env n1 rem edges1 nb1 tr1

/-- ManipulationPlanner::tryConnectToRoadmap (lines 328-383): for each new
node, try to connect it to each other connected component. Returns the final
edge set, nbConnection and the list of addEdge events. -/
def tryConnectToRoadmap (env : ConnEnv) :
    List Nat → EdgeSet → Nat → List AddEvent →
    EdgeSet × Nat × List AddEvent
  | [], edges, nb, tr => (edges, nb, tr)
  | n1 :: rem, edges, nb, tr =>
    let r := tryComponents env n1 env.ccList edges nb tr
    tryConnectToRoadmap env rem r.1 r.2.1 r.2.2

/-- A pair of nodes is bidirectionally connected in an edge set when both
directed edges are present. -/
def biconnected (edges : EdgeSet) (a b : Nat) : Prop :=
  (a, b) ∈ edges ∧ (b, a) ∈ edges

/-- Every addEdge event of the trace connected a pair that was not already
bidirectionally connected right before the call. -/
def goodTrace (tr : List AddEvent) : Prop :=
  ∀ ev ∈ tr, ¬ biconnected ev.pre ev.src ev.dst

/-- Connection environment for the C9 witness: node 0 (component 0,
configuration 0) and node 1 (component 1, configuration 10); steering and
validation always succeed, no projector. -/
def envConn : ConnEnv :=
  ⟨fun n => if n = 1 then 1 else 0,
   fun n => if n = 1 then 10 else 0,
   [0, 1],
   fun _ cc => if cc = 1 then [1] else [],
   fun _ _ => some 0,
   false,
   fun p => some p,
   fun _ => true⟩

/-! ## Theorems: graph path validation -/

theorem forwardLoop_true_eq (os : Nat) (subs : List GPath)
    (recur : GPath → Option (Bool × GPath)) :
    ∀ rem i vp, forwardLoop os subs recur rem i = some (true, vp) →
      vp = GPath.pvec os subs := by
  intro rem
  induction rem with
  | nil =>
    intro i vp h
    simp only [forwardLoop, Option.some.injEq, Prod.mk.injEq, true_and] at h
    exact h.symm
  | cons sub rest ih =>
    intro i vp h
    simp only [forwardLoop] at h
    rcases hr : recur sub with _ | ⟨b, vq⟩ <;> rw [hr] at h
    · exact absurd h (by simp)
    · cases b with
      | true => exact ih (i + 1) vp h
      | false => simp at h

theorem reverseLoop_true_eq (os : Nat) (subs : List GPath)
    (recur : GPath → Option (Bool × GPath)) :
    ∀ rem k vp, reverseLoop os subs recur rem k = some (true, vp) →
      vp = GPath.pvec os subs := by
  intro rem
  induction rem with
  | nil =>
    intro k vp h
    simp only [reverseLoop, Option.some.injEq, Prod.mk.injEq, true_and] at h
    exact h.symm
  | cons sub rest ih =>
    intro k vp h
    simp only [reverseLoop] at h
    rcases hr : recur sub with _ | ⟨b, vq⟩ <;> rw [hr] at h
    · exact absurd h (by simp)
    · cases b with
      | true => exact ih (k + 1) vp h
      | false => simp at h

theorem edgeLoop_not_true (env : ValidationEnv)
    (recur : GPath → Option (Bool × GPath)) (p pnc : LeafPath) :
    ∀ rem vp, edgeLoop env recur p pnc rem = some (true, vp) → False := by
  intro rem
  induction rem with
  | nil =>
    intro vp h
    simp [edgeLoop] at h
  | cons es rest ih =>
    intro vp h
    simp only [edgeLoop] at h
    by_cases hs : env.isSatisfied
        (env.offsetFromConfig (env.pathConstraint es) pnc.atMin) pnc.atMax
    · rw [if_pos hs] at h
      rcases hr : recur (GPath.leaf
          ⟨pnc.tmin, pnc.tmax, pnc.atMin, pnc.atMax,
           some (env.offsetFromConfig (env.pathConstraint es) pnc.atMin)⟩)
        with _ | ⟨b, vq⟩ <;> rw [hr] at h
      · exact absurd h (by simp)
      · simp at h
    · rw [if_neg hs] at h
      exact ih vp h

theorem leafCase_true_eq (env : ValidationEnv)
    (recur : GPath → Bool → Option (Bool × GPath)) (p : LeafPath) (r : Bool)
    (vp : GPath) (h : leafCase env recur p r = some (true, vp)) :
    vp = GPath.leaf p := by
  unfold leafCase at h
  rcases hc : env.collisionValidate p r with ⟨ok, pnc⟩
  rw [hc] at h
  cases ok with
  | true =>
    simp only [Option.some.injEq, Prod.mk.injEq, true_and] at h
    exact h.symm
  | false =>
    rcases ht : leafTryBlock env p pnc with _ | od <;> simp only [ht] at h
    · simp at h
    · rcases od with _ | ⟨orig, dest⟩
      · simp at h
      · exact absurd h (by
          intro hh
          exact edgeLoop_not_true env (fun q => recur q r) p pnc _ vp hh)

theorem implValidate_true_eq (env : ValidationEnv) :
    ∀ fuel (q : GPath) (r : Bool) (vp : GPath),
      implValidate env fuel q r = some (true, vp) → vp = q := by
  intro fuel
  cases fuel with
  | zero => intro q r vp h; simp [implValidate] at h
  | succ n =>
    intro q r vp h
    cases q with
    | leaf p =>
      exact leafCase_true_eq env (fun q r => implValidate env n q r) p r vp h
    | pvec os subs =>
      cases r with
      | false => exact forwardLoop_true_eq os subs _ subs 0 vp h
      | true => exact reverseLoop_true_eq os subs _ subs.reverse 0 vp h

/-- C10: whenever GraphPathValidation::validate returns true it has assigned
validPart, and the assigned validPart is the input path itself (lines 73-74 for
a PathVector whose sub-paths all validate, lines 86-87 for a leaf path that
passes collision validation); in the embedding the result always carries the
assigned validPart, and on a true result that validPart equals the input. -/
theorem C10_validate_true_validPart_eq_input (env : ValidationEnv)
    (fuel : Nat) (p : GPath) (r : Bool) (vp : GPath)
    (h : validateGP env fuel p r = some (true, vp)) : vp = p :=
  implValidate_true_eq env fuel p r vp h

/-- Witness for C10 at a concrete input: a leaf path in an environment whose
collision validation succeeds validates to true with validPart the path
itself. -/
theorem C10_witness :
    validateGP envAllValid 1 (GPath.leaf p1c) false
      = some (true, GPath.leaf p1c) ∧ GPath.leaf p1c = GPath.leaf p1c :=
  ⟨rfl, C10_validate_true_validPart_eq_input envAllValid 1 (GPath.leaf p1c)
    false (GPath.leaf p1c) rfl⟩

theorem leafTryBlock_error_of_raises (env : ValidationEnv) (p pnc : LeafPath)
    (h : nodeLookupRaises env p pnc) :
    leafTryBlock env p pnc = Except.error () := by
  unfold nodeLookupRaises at h
  rcases h with h1 | ⟨o, ho, h2 | ⟨d, hd, h3 | ⟨ho2, h4⟩⟩⟩
  · simp [leafTryBlock, h1]
  · simp [leafTryBlock, ho, h2]
  · simp [leafTryBlock, ho, hd, h3]
  · simp [leafTryBlock, ho, hd, ho2, h4]

/-- C7: on a leaf path whose collision validation returns a shortened part, if
a getNode lookup performed inside the try block raises the node-lookup
logic_error, validate returns false with validPart the zero-length extraction
path.extract([t_min, t_min]) of the original path (lines 104-109); the
error is converted, not propagated (the result is an ordinary return value). -/
theorem C7_nodeLookup_error_zero_length (env : ValidationEnv) (fuel : Nat)
    (p pnc : LeafPath) (r : Bool)
    (hcv : env.collisionValidate p r = (false, pnc))
    (herr : nodeLookupRaises env p pnc) :
    validateGP env (fuel + 1) (GPath.leaf p) r
      = some (false, GPath.leaf (extractPoint p)) := by
  simp [validateGP, implValidate, leafCase, hcv,
    leafTryBlock_error_of_raises env p pnc herr]

/-- Witness for C7: in envNoNode the collision-shortened part starts at
configuration 99, which has no constraint-graph node, so validation of p1c
returns false with the zero-length extraction of p1c. -/
theorem C7_witness :
    validateGP envNoNode 1 (GPath.leaf p1c) false
      = some (false, GPath.leaf (extractPoint p1c)) :=
  C7_nodeLookup_error_zero_length envNoNode 0 p1c pShort false rfl
    (Or.inl rfl)

/-- C8: on a leaf path shortened by collision validation to pathNoCollision,
when the graph-node set of the shortened start equals that of the original
start and likewise at the ends, validate returns false with validPart equal to
pathNoCollision itself, with no further graph processing (lines 99-103). -/
theorem C8_graph_consistency_pathNoCollision (env : ValidationEnv)
    (fuel : Nat) (p pnc : LeafPath) (r : Bool) (orig dest : List GraphNode)
    (hcv : env.collisionValidate p r = (false, pnc))
    (h1 : env.getNode pnc.atMin = Except.ok orig)
    (h2 : env.getNode pnc.atMax = Except.ok dest)
    (h3 : env.getNode p.atMin = Except.ok orig)
    (h4 : env.getNode p.atMax = Except.ok dest) :
    validateGP env (fuel + 1) (GPath.leaf p) r
      = some (false, GPath.leaf pnc) := by
  simp [validateGP, implValidate, leafCase, hcv, leafTryBlock, h1, h2, h3, h4]

/-- Witness for C8: in envE3 the sub-path p2c is shortened to p2part and every
configuration lies in graph node 0, so validation returns false with
validPart = p2part. -/
theorem C8_witness :
    validateGP envE3 1 (GPath.leaf p2c) false
      = some (false, GPath.leaf p2part) :=
  C8_graph_consistency_pathNoCollision envE3 0 p2c p2part false [0] [0]
    rfl rfl rfl rfl rfl

/-- C1: the claim fails on the code. At the first invalid sub-path i, the
inner loop of lines 63-64 appends `path->pathAtRank(i)->copy()` — a copy of
the INVALID sub-path at rank i — once per valid predecessor, instead of the
predecessors `pathAtRank(v)` themselves. On the E3 input [p1, p2, p3] with p2
collision-invalid halfway, validPart is the PathVector [p2, valid half of p2]
(p2 in full, from before the shortening), not [p1, valid half of p2] as the
claim states. -/
theorem C1_pathAtRank_copy_eval :
    validateGP envE3 2
        (GPath.pvec 3 [GPath.leaf p1c, GPath.leaf p2c, GPath.leaf p3c]) false
      = some (false, GPath.pvec 3 [GPath.leaf p2c, GPath.leaf p2part])
    ∧ p2c ≠ p1c :=
  ⟨rfl, by decide⟩

/-! ## Theorems: ManipulationPlanner -/

/-- C2: the claim fails on the code. With a manipulation Problem and a
non-manipulation Roadmap (and the external base constructor not raising on a
null roadmap pointer), the pointer dynamic cast yields null without throwing,
the null check in the catch block is never reached, and create returns a
planner whose roadmap pointer is null — no invalid_argument is thrown. When an
exception is thrown (here: wrong problem type), the message is always the
roadmap one, because the catch block tests the shadowed, never-assigned outer
`r`; that message does contain the substring "Roadmap". -/
theorem C2_create_shadowed_roadmap_check :
    createPlanner ⟨true, false, false⟩ = Except.ok false
    ∧ createPlanner ⟨false, true, false⟩ = Except.error roadmapTypeMsg
    ∧ "Roadmap".toList <:+: roadmapTypeMsg.toList :=
  ⟨rfl, rfl, by decide⟩

/-- C3: the claim fails on the code. For a never-observed edge id the loop of
line 105 pushes only six zeros, so getEdgeStat returns a vector of length 6,
not 7; for an observed edge the other branch pushes the success count plus six
failure counts, length 7. -/
theorem C3_getEdgeStat_unobserved_length :
    getEdgeStat emptyStats 5 = [0, 0, 0, 0, 0, 0]
    ∧ (getEdgeStat emptyStats 5).length = 6
    ∧ (getEdgeStat (edgeStatIdx emptyStats 5 "e").1 5).length = 7 :=
  ⟨rfl, rfl, rfl⟩

/-- C6 counterexample: the claim that every (cc, gn) extension observes the
roadmap as it was at the start of the step fails on the code: the extension
loop of lines 150-179, which inserts through addNodeAndEdges as it iterates,
differs from the snapshot-semantics loop on a concrete input. -/
theorem C6_counterexample :
    extensionLoop envStep 9 0 [0, 1] nodes0 [] []
      ≠ extensionLoopSnapshot envStep 9 0 nodes0 [0, 1] nodes0 [] [] := by
  decide

/-- C6 amended: non-duplicate new nodes are inserted during the extension loop
itself via addNodeAndEdges, and such a node can be returned as the
nearest-neighbor candidate of a later (cc, gn) iteration of the same step: at
the start of the step no node lies in graph node 1, so nearestNode is none
there; after the first iteration inserts configuration 5 into graph node 1,
the second iteration's nearestNode query returns it, and the loop extends from
it to configuration 7. -/
theorem C6_amended_midloop_visibility :
    extensionLoop envStep 9 0 [0, 1] nodes0 [] []
      = ([⟨0, 0, 0⟩, ⟨5, 1, 0⟩, ⟨7, 1, 0⟩], [5, 7], [])
    ∧ nearestNode nodes0 9 0 1 = none
    ∧ nearestNode (addNodeAndEdges nodes0 0 5 1) 9 0 1 = some ⟨5, 1, 0⟩ := by
  refine ⟨by decide, by decide, by decide⟩

/-- C4 counterexample: the claim fails on the code. With extendStep = 1/2 and
a fully valid 2-second path (no projector), line 292's test
`extendStep_ == 1 || fullyValid` succeeds, so validPath is the whole 2-second
path (length 2, not 1) and lines 309-310 record one SUCCESS and zero
PARTLY_EXTENDED. -/
theorem C4_counterexample :
    (extend envE4 (1/2) emptyStats 0 9).2.1 = true
    ∧ (extend envE4 (1/2) emptyStats 0 9).2.2 = some ⟨0, 2⟩
    ∧ EPath.lengthE ⟨0, 2⟩ = 2 ∧ (2 : Rat) ≠ 1
    ∧ ((extend envE4 (1/2) emptyStats 0 9).1.perEdgeStatistics.getD 0
        (freshStats "")).nbSuccess = 1
    ∧ ((extend envE4 (1/2) emptyStats 0 9).1.perEdgeStatistics.getD 0
        (freshStats "")).nbFailure PARTLY_EXTENDED_REASON = 0 := by
  refine ⟨?_, ?_, ?_, ?_, ?_, ?_⟩ <;>
    norm_num [extend, extendBody, envE4, edgeStatIdx, edgeStatRegister,
      resizeIdx, emptyStats, extendFinish,
      EPath.lengthE, statAddSuccess, addSuccessS, freshStats,
      PARTLY_EXTENDED_REASON]

/-- C4 amended: when the validation of the (unprojected) path is fully valid
with a non-zero length, extend returns true with validPath equal to the WHOLE
fullValidPath — extendStep is not applied — and records exactly one success
(the extendStep extraction of line 298 only applies to partially valid
paths). -/
theorem C4_amended_fully_valid_whole_path (env : ExtendEnv) (extendStep : Rat)
    (s : StatsState) (qNear qRand : Config) (eid : Nat) (enm : String)
    (qProj : Config) (path fvp : EPath)
    (hce : env.chooseEdge = some (eid, enm))
    (hap : env.applyConstraints qRand = some qProj)
    (hb : env.build qNear qProj = some path)
    (hnp : env.hasProjector = false)
    (hv : env.validatePath path = Except.ok (true, fvp))
    (hlen : fvp.lengthE ≠ 0) :
    extend env extendStep s qNear qRand
      = (statAddSuccess (edgeStatIdx s eid enm).1 (edgeStatIdx s eid enm).2,
         true, some fvp) := by
  simp [extend, extendBody, hce, hap, hb, hnp, hv, hlen, extendFinish]

/-- Witness for C4 amended at the concrete E4 scenario. -/
theorem C4_witness :
    extend envE4 (1/2) emptyStats 0 9
      = (statAddSuccess (edgeStatIdx emptyStats 0 "e0").1
          (edgeStatIdx emptyStats 0 "e0").2, true, some ⟨0, 2⟩) :=
  C4_amended_fully_valid_whole_path envE4 (1/2) emptyStats 0 9 0 "e0" 9
    ⟨0, 2⟩ ⟨0, 2⟩ rfl rfl rfl rfl rfl
    (by norm_num [EPath.lengthE])

/-- C5 counterexample: the claim fails on the code. A single extend attempt on
a partially valid path (no projector, extendStep 1) records both
PATH_VALIDATION_SHORTER (line 291) and a success (line 309), so the sum of
getEdgeStat is 2 after exactly one attempt that selected the edge. -/
theorem C5_counterexample :
    statSum (extend envPartial 1 emptyStats 0 9).1 0 = 2 ∧ (2 : Nat) ≠ 1 := by
  refine ⟨?_, by decide⟩
  norm_num [extend, extendBody, envPartial, edgeStatIdx, edgeStatRegister,
    resizeIdx, emptyStats, extendFinish,
    EPath.lengthE, statSum, getEdgeStat, statAddFailure, statAddSuccess,
    addFailureS, addSuccessS, freshStats, PVAL_SHORTER_REASON, List.range_succ]

theorem getEdgeStat_of_obsAt (s : StatsState) (id i : Nat) (h : obsAt s id i) :
    getEdgeStat s id
      = (s.perEdgeStatistics.getD i (freshStats "")).nbSuccess ::
        (List.range 6).map (s.perEdgeStatistics.getD i (freshStats "")).nbFailure := by
  obtain ⟨h1, h2, h3⟩ := h
  unfold getEdgeStat
  rw [if_neg (by
    push_neg
    refine ⟨by omega, ?_⟩
    rw [h2]
    exact Int.le.intro_sub _ rfl)]
  rw [h2]
  simp

theorem statSum_of_obsAt (s : StatsState) (id i : Nat) (h : obsAt s id i) :
    statSum s id
      = (s.perEdgeStatistics.getD i (freshStats "")).nbSuccess +
        ((List.range 6).map
          (s.perEdgeStatistics.getD i (freshStats "")).nbFailure).sum := by
  rw [statSum, getEdgeStat_of_obsAt s id i h]
  simp

theorem obsAt_addFailure (s : StatsState) (id i r : Nat) (h : obsAt s id i) :
    obsAt (statAddFailure s i r) id i := by
  obtain ⟨h1, h2, h3⟩ := h
  exact ⟨h1, h2, by simpa [statAddFailure] using h3⟩

theorem obsAt_addSuccess (s : StatsState) (id i : Nat) (h : obsAt s id i) :
    obsAt (statAddSuccess s i) id i := by
  obtain ⟨h1, h2, h3⟩ := h
  exact ⟨h1, h2, by simpa [statAddSuccess] using h3⟩

theorem getD_set_self (l : List SuccessStatistics) (i : Nat)
    (v d : SuccessStatistics) (h : i < l.length) : (l.set i v).getD i d = v := by
  simp [List.getD_eq_getElem?_getD, List.getElem?_set, h]

theorem sum_range6_update (f : Nat → Nat) (r : Nat) (hr : r < 6) :
    ((List.range 6).map (fun j => if j = r then f j + 1 else f j)).sum
      = ((List.range 6).map f).sum + 1 := by
  interval_cases r <;> simp [List.range_succ] <;> omega

theorem sum_range6_update_partly (f : Nat → Nat) :
    ((List.range 6).map (fun j => if j = PARTLY_EXTENDED_REASON then f j + 1 else f j)).sum
      = ((List.range 6).map f).sum := by
  simp [List.range_succ, PARTLY_EXTENDED_REASON]

theorem statSum_addFailure_counted (s : StatsState) (id i r : Nat)
    (h : obsAt s id i) (hr : r < 6) :
    statSum (statAddFailure s i r) id = statSum s id + 1 := by
  rw [statSum_of_obsAt _ id i (obsAt_addFailure s id i r h),
    statSum_of_obsAt s id i h]
  unfold statAddFailure
  rw [show (⟨s.indexPerEdgeStatistics,
      s.perEdgeStatistics.set i
        (addFailureS (s.perEdgeStatistics.getD i (freshStats "")) r)⟩ :
      StatsState).perEdgeStatistics
    = s.perEdgeStatistics.set i
        (addFailureS (s.perEdgeStatistics.getD i (freshStats "")) r) from rfl]
  rw [getD_set_self _ _ _ _ h.2.2]
  unfold addFailureS
  simp only []
  rw [sum_range6_update _ r hr]
  omega

theorem statSum_addFailure_partly (s : StatsState) (id i : Nat)
    (h : obsAt s id i) :
    statSum (statAddFailure s i PARTLY_EXTENDED_REASON) id = statSum s id := by
  rw [statSum_of_obsAt _ id i (obsAt_addFailure s id i _ h),
    statSum_of_obsAt s id i h]
  unfold statAddFailure
  rw [show (⟨s.indexPerEdgeStatistics,
      s.perEdgeStatistics.set i
        (addFailureS (s.perEdgeStatistics.getD i (freshStats ""))
          PARTLY_EXTENDED_REASON)⟩ :
      StatsState).perEdgeStatistics
    = s.perEdgeStatistics.set i
        (addFailureS (s.perEdgeStatistics.getD i (freshStats ""))
          PARTLY_EXTENDED_REASON) from rfl]
  rw [getD_set_self _ _ _ _ h.2.2]
  unfold addFailureS
  simp only []
  rw [sum_range6_update_partly]

theorem statSum_addSuccess_eq (s : StatsState) (id i : Nat) (h : obsAt s id i) :
    statSum (statAddSuccess s i) id = statSum s id + 1 := by
  rw [statSum_of_obsAt _ id i (obsAt_addSuccess s id i h),
    statSum_of_obsAt s id i h]
  unfold statAddSuccess
  rw [show (⟨s.indexPerEdgeStatistics,
      s.perEdgeStatistics.set i
        (addSuccessS (s.perEdgeStatistics.getD i (freshStats "")))⟩ :
      StatsState).perEdgeStatistics
    = s.perEdgeStatistics.set i
        (addSuccessS (s.perEdgeStatistics.getD i (freshStats ""))) from rfl]
  rw [getD_set_self _ _ _ _ h.2.2]
  unfold addSuccessS
  simp only []
  omega

theorem statSum_unobserved (s : StatsState) (id : Nat)
    (h : s.indexPerEdgeStatistics.length ≤ id ∨
      s.indexPerEdgeStatistics.getD id (-1) < 0) : statSum s id = 0 := by
  unfold statSum getEdgeStat
  rw [if_pos h]
  rfl

theorem edgeStatIdx_spec (s : StatsState) (id : Nat) (nm : String)
    (hwf : statsWF s) :
    obsAt (edgeStatIdx s id nm).1 id (edgeStatIdx s id nm).2 ∧
    statSum (edgeStatIdx s id nm).1 id = statSum s id := by
  have hgetP : (s.perEdgeStatistics ++ [freshStats nm]).getD
      s.perEdgeStatistics.length (freshStats "") = freshStats nm := by
    rw [List.getD_eq_getElem?_getD, List.getElem?_concat_length]
    rfl
  by_cases hlen : s.indexPerEdgeStatistics.length ≤ id
  · have hg : (s.indexPerEdgeStatistics ++
        List.replicate (id + 1 - s.indexPerEdgeStatistics.length) (-1)).getD id (-1)
        = -1 := by
      rw [List.getD_eq_getElem?_getD, List.getElem?_append_right hlen,
        List.getElem?_replicate]
      rw [if_pos (by omega : id - s.indexPerEdgeStatistics.length <
        id + 1 - s.indexPerEdgeStatistics.length)]
      rfl
    have hres : edgeStatIdx s id nm =
        (⟨(s.indexPerEdgeStatistics ++
            List.replicate (id + 1 - s.indexPerEdgeStatistics.length) (-1)).set id
            (Int.ofNat s.perEdgeStatistics.length),
          s.perEdgeStatistics ++ [freshStats nm]⟩,
         s.perEdgeStatistics.length) := by
      unfold edgeStatIdx edgeStatRegister resizeIdx
      rw [if_pos hlen]
      dsimp only
      rw [hg]
      rw [if_pos (show (-1 : Int) < 0 by decide)]
    have hlenidx : id < (s.indexPerEdgeStatistics ++
        List.replicate (id + 1 - s.indexPerEdgeStatistics.length) (-1)).length := by
      rw [List.length_append, List.length_replicate]; omega
    have hset : ((s.indexPerEdgeStatistics ++
        List.replicate (id + 1 - s.indexPerEdgeStatistics.length) (-1)).set id
          (Int.ofNat s.perEdgeStatistics.length)).getD id (-1)
        = Int.ofNat s.perEdgeStatistics.length := by
      rw [List.getD_eq_getElem?_getD, List.getElem?_set]
      rw [if_pos rfl, if_pos hlenidx]
      rfl
    have hobs : obsAt (edgeStatIdx s id nm).1 id (edgeStatIdx s id nm).2 := by
      rw [hres]
      refine ⟨?_, hset, ?_⟩
      · rw [List.length_set]; exact hlenidx
      · rw [List.length_append]; simp
    refine ⟨hobs, ?_⟩
    rw [statSum_unobserved s id (Or.inl hlen), statSum_of_obsAt _ id _ hobs, hres]
    dsimp only
    rw [hgetP]
    simp [freshStats]
  · by_cases hneg : s.indexPerEdgeStatistics.getD id (-1) < 0
    · have hres : edgeStatIdx s id nm =
          (⟨s.indexPerEdgeStatistics.set id (Int.ofNat s.perEdgeStatistics.length),
            s.perEdgeStatistics ++ [freshStats nm]⟩,
           s.perEdgeStatistics.length) := by
        unfold edgeStatIdx edgeStatRegister resizeIdx
        rw [if_neg hlen]
        rw [if_pos hneg]
      have hidlt : id < s.indexPerEdgeStatistics.length := by omega
      have hset : (s.indexPerEdgeStatistics.set id
            (Int.ofNat s.perEdgeStatistics.length)).getD id (-1)
          = Int.ofNat s.perEdgeStatistics.length := by
        rw [List.getD_eq_getElem?_getD, List.getElem?_set]
        rw [if_pos rfl, if_pos hidlt]
        rfl
      have hobs : obsAt (edgeStatIdx s id nm).1 id (edgeStatIdx s id nm).2 := by
        rw [hres]
        refine ⟨?_, hset, ?_⟩
        · rw [List.length_set]; exact hidlt
        · rw [List.length_append]; simp
      refine ⟨hobs, ?_⟩
      rw [statSum_unobserved s id (Or.inr hneg), statSum_of_obsAt _ id _ hobs, hres]
      dsimp only
      rw [hgetP]
      simp [freshStats]
    · have hres : edgeStatIdx s id nm =
          (s, (s.indexPerEdgeStatistics.getD id (-1)).toNat) := by
        unfold edgeStatIdx edgeStatRegister resizeIdx
        rw [if_neg hlen]
        rw [if_neg hneg]
      rw [hres]
      dsimp only
      exact ⟨⟨by omega, (Int.toNat_of_nonneg (by omega)).symm,
        hwf id (by omega)⟩, rfl⟩

theorem sum_range6_update_ite (f : Nat → Nat) (r : Nat) :
    ((List.range 6).map (fun j => if j = r then f j + 1 else f j)).sum
      = ((List.range 6).map f).sum + (if r < 6 then 1 else 0) := by
  by_cases hr : r < 6
  · rw [if_pos hr, sum_range6_update f r hr]
  · rw [if_neg hr]
    have h0 : (0 : Nat) ≠ r := by omega
    have h1 : (1 : Nat) ≠ r := by omega
    have h2 : (2 : Nat) ≠ r := by omega
    have h3 : (3 : Nat) ≠ r := by omega
    have h4 : (4 : Nat) ≠ r := by omega
    have h5 : (5 : Nat) ≠ r := by omega
    simp [List.range_succ, h0, h1, h2, h3, h4, h5]

theorem statSum_addFailure_ite (s : StatsState) (id i r : Nat)
    (h : obsAt s id i) :
    statSum (statAddFailure s i r) id
      = statSum s id + (if r < 6 then 1 else 0) := by
  rw [statSum_of_obsAt _ id i (obsAt_addFailure s id i r h),
    statSum_of_obsAt s id i h]
  unfold statAddFailure
  dsimp only
  rw [getD_set_self _ _ _ _ h.2.2]
  unfold addFailureS
  dsimp only
  rw [sum_range6_update_ite]
  omega

theorem statSum_extendFinish (s : StatsState) (id i : Nat) (ps : Bool)
    (vp : EPath) (h : obsAt s id i) :
    statSum (extendFinish s i ps vp).1 id
      = statSum s id + (if ps then 0 else 1) := by
  cases ps with
  | true =>
    rw [show (extendFinish s i true vp).1
      = statAddFailure s i PARTLY_EXTENDED_REASON from rfl]
    rw [statSum_addFailure_ite s id i _ h]
    simp [PARTLY_EXTENDED_REASON]
  | false =>
    rw [show (extendFinish s i false vp).1 = statAddSuccess s i from rfl]
    rw [statSum_addSuccess_eq s id i h]
    simp

theorem extendBody_sum_ge (env : ExtendEnv) (extendStep : Rat)
    (qNear qRand : Config) (eid : Nat) (enm : String) (s : StatsState) :
    ∀ s1 : StatsState, ∀ i : Nat, obsAt s1 eid i →
      edgeStatIdx s eid enm = (s1, i) →
      statSum s1 eid + 1
        ≤ statSum (extendBody env extendStep s qNear qRand eid enm).1 eid := by
  intro s1 i hobs hreg
  unfold extendBody
  rw [hreg]
  dsimp only
  rcases hap : env.applyConstraints qRand with _ | qp
  · simp only [hap]
    rw [statSum_addFailure_ite s1 eid i _ hobs]
    simp [PROJ_REASON]
  · simp only [hap]
    rcases hb : env.build qNear qp with _ | path
    · simp only [hb]
      rw [statSum_addFailure_ite s1 eid i _ hobs]
      simp [STEER_REASON]
    · simp only [hb]
      generalize hpr : (if env.hasProjector then env.projApply path
        else (true, path)) = pr
      obtain ⟨pok, pp⟩ := pr
      dsimp only
      cases pok with
      | false =>
        by_cases hl0 : pp.lengthE = 0
        · rw [if_pos ⟨rfl, hl0⟩]
          dsimp only
          rw [statSum_addFailure_ite s1 eid i _ hobs]
          simp [PPROJ_ZERO_REASON]
        · rw [if_neg (by simp [hl0])]
          rw [show (if (!false) = true
              then statAddFailure s1 i PPROJ_SHORTER_REASON else s1)
            = statAddFailure s1 i PPROJ_SHORTER_REASON from by simp]
          have hobs2 := obsAt_addFailure s1 eid i PPROJ_SHORTER_REASON hobs
          have hs2 := statSum_addFailure_ite s1 eid i PPROJ_SHORTER_REASON hobs
          rcases hv : env.validatePath pp with _ | fvres
          · simp only [hv]
            rw [statSum_addFailure_ite _ eid i _ hobs2, hs2]
            simp [PVAL_ZERO_REASON, PPROJ_SHORTER_REASON]
          · simp only [hv]
            obtain ⟨fv, fvp⟩ := fvres
            dsimp only
            by_cases hfl : fvp.lengthE = 0
            · rw [if_pos hfl]
              dsimp only
              rw [statSum_addFailure_ite _ eid i _ hobs2, hs2]
              simp [PVAL_ZERO_REASON, PPROJ_SHORTER_REASON]
            · rw [if_neg hfl]
              cases fv with
              | true =>
                rw [show (if (true : Bool) = true
                    then statAddFailure s1 i PPROJ_SHORTER_REASON
                    else statAddFailure
                      (statAddFailure s1 i PPROJ_SHORTER_REASON) i
                      PVAL_SHORTER_REASON)
                  = statAddFailure s1 i PPROJ_SHORTER_REASON from by simp]
                rw [if_pos (Or.inr rfl)]
                rw [statSum_extendFinish _ eid i _ _ hobs2, hs2]
                simp [PPROJ_SHORTER_REASON]
              | false =>
                rw [show (if (false : Bool) = true
                    then statAddFailure s1 i PPROJ_SHORTER_REASON
                    else statAddFailure
                      (statAddFailure s1 i PPROJ_SHORTER_REASON) i
                      PVAL_SHORTER_REASON)
                  = statAddFailure
                      (statAddFailure s1 i PPROJ_SHORTER_REASON) i
                      PVAL_SHORTER_REASON from by simp]
                have hobs3 := obsAt_addFailure _ eid i PVAL_SHORTER_REASON hobs2
                have hs3 := statSum_addFailure_ite _ eid i PVAL_SHORTER_REASON hobs2
                by_cases hes : extendStep = 1
                · rw [if_pos (Or.inl hes)]
                  rw [statSum_extendFinish _ eid i _ _ hobs3, hs3, hs2]
                  simp [PPROJ_SHORTER_REASON, PVAL_SHORTER_REASON]
                · rw [if_neg (by simp [hes])]
                  rcases hex : env.extractPath fvp fvp.t0
                      (fvp.t0 + fvp.lengthE * extendStep) with _ | vp
                  · simp only [hex]
                    rw [statSum_addFailure_ite _ eid i _ hobs3, hs3, hs2]
                    simp [PPROJ_SHORTER_REASON, PVAL_SHORTER_REASON]
                  · simp only [hex]
                    rw [statSum_extendFinish _ eid i _ _ hobs3, hs3, hs2]
                    simp [PPROJ_SHORTER_REASON, PVAL_SHORTER_REASON]
      | true =>
        rw [if_neg (by simp)]
        rw [show (if (!true) = true
            then statAddFailure s1 i PPROJ_SHORTER_REASON else s1) = s1
          from by simp]
        rcases hv : env.validatePath pp with _ | fvres
        · simp only [hv]
          rw [statSum_addFailure_ite s1 eid i _ hobs]
          simp [PVAL_ZERO_REASON]
        · simp only [hv]
          obtain ⟨fv, fvp⟩ := fvres
          dsimp only
          by_cases hfl : fvp.lengthE = 0
          · rw [if_pos hfl]
            dsimp only
            rw [statSum_addFailure_ite s1 eid i _ hobs]
            simp [PVAL_ZERO_REASON]
          · rw [if_neg hfl]
            cases fv with
            | true =>
              rw [show (if (true : Bool) = true then s1
                  else statAddFailure s1 i PVAL_SHORTER_REASON) = s1
                from by simp]
              rw [if_pos (Or.inr rfl)]
              rw [statSum_extendFinish _ eid i _ _ hobs]
              simp
            | false =>
              rw [show (if (false : Bool) = true then s1
                  else statAddFailure s1 i PVAL_SHORTER_REASON)
                = statAddFailure s1 i PVAL_SHORTER_REASON from by simp]
              have hobs3 := obsAt_addFailure s1 eid i PVAL_SHORTER_REASON hobs
              have hs3 := statSum_addFailure_ite s1 eid i PVAL_SHORTER_REASON hobs
              by_cases hes : extendStep = 1
              · rw [if_pos (Or.inl hes)]
                rw [statSum_extendFinish _ eid i _ _ hobs3, hs3]
                simp [PVAL_SHORTER_REASON]
              · rw [if_neg (by simp [hes])]
                rcases hex : env.extractPath fvp fvp.t0
                    (fvp.t0 + fvp.lengthE * extendStep) with _ | vp
                · simp only [hex]
                  rw [statSum_addFailure_ite _ eid i _ hobs3, hs3]
                  simp [PPROJ_SHORTER_REASON, PVAL_SHORTER_REASON]
                · simp only [hex]
                  rw [statSum_extendFinish _ eid i _ _ hobs3, hs3]
                  simp [PVAL_SHORTER_REASON]

/-- C5 amended: each extend attempt in which chooseEdge selects an edge
contributes AT LEAST one unit to that edge's getEdgeStat sum, but possibly
more: the informational reasons PATH_PROJECTION_SHORTER (line 268) and
PATH_VALIDATION_SHORTER (line 291) are recorded in addition to the final
success or failure of the attempt, so the sum can exceed the number of
attempts. -/
theorem C5_amended_attempt_adds_at_least_one (env : ExtendEnv)
    (extendStep : Rat) (s : StatsState) (qNear qRand : Config)
    (eid : Nat) (enm : String) (hwf : statsWF s)
    (hce : env.chooseEdge = some (eid, enm)) :
    statSum s eid + 1 ≤ statSum (extend env extendStep s qNear qRand).1 eid := by
  obtain ⟨hobs, hsum⟩ := edgeStatIdx_spec s eid enm hwf
  have hext : extend env extendStep s qNear qRand
      = extendBody env extendStep s qNear qRand eid enm := by
    unfold extend
    rw [hce]
  rw [hext, ← hsum]
  exact extendBody_sum_ge env extendStep qNear qRand eid enm s
    (edgeStatIdx s eid enm).1 (edgeStatIdx s eid enm).2 hobs rfl

/-- Witness for C5 amended at the concrete partially-valid scenario. -/
theorem C5_witness :
    statSum emptyStats 0 + 1
      ≤ statSum (extend envPartial 1 emptyStats 0 9).1 0 :=
  C5_amended_attempt_adds_at_least_one envPartial 1 emptyStats 0 9 0 "e0"
    (by
      unfold statsWF emptyStats
      intro id h
      rw [List.getD_nil] at h
      omega)
    rfl


theorem goodTrace_append_one (tr : List AddEvent) (ev : AddEvent)
    (htr : goodTrace tr) (hev : ¬ biconnected ev.pre ev.src ev.dst) :
    goodTrace (tr ++ [ev]) := by
  intro e he
  rcases List.mem_append.mp he with h | h
  · exact htr e h
  · rcases List.mem_singleton.mp h with rfl
    exact hev

theorem tryCandidates_good (env : ConnEnv) (n1 : Nat) :
    ∀ cand edges nb tr, (∀ n2 ∈ cand, n2 ≠ n1) → goodTrace tr →
      goodTrace (tryCandidates env n1 cand edges nb tr).2.2.1 := by
  intro cand
  induction cand with
  | nil =>
    intro edges nb tr hne htr
    simpa [tryCandidates] using htr
  | cons n2 rem ih =>
    intro edges nb tr hne htr
    have hne2 : n2 ≠ n1 := hne n2 (List.mem_cons_self n2 rem)
    have hnerem : ∀ m ∈ rem, m ≠ n1 := fun m hm => hne m (List.mem_cons_of_mem _ hm)
    unfold tryCandidates
    by_cases h12 : (n1, n2) ∈ edges ∧ (n2, n1) ∈ edges
    · rw [if_pos h12]
      exact ih edges nb tr hnerem htr
    · rw [if_neg h12]
      rcases hs : env.steer (env.cfgOf n1) (env.cfgOf n2) with _ | path
      · simp only [hs]
        exact ih edges nb tr hnerem htr
      · simp only [hs]
        rcases hp : (if env.hasProjector then env.projApply path else some path)
          with _ | pp
        · simp only [hp]
          exact ih edges nb tr hnerem htr
        · simp only [hp]
          by_cases hv : env.validateOk pp = true
          · rw [if_pos hv]
            dsimp only
            by_cases e12 : (n1, n2) ∈ edges
            · rw [if_pos e12]
              have e21 : (n2, n1) ∉ edges := fun h => h12 ⟨e12, h⟩
              rw [if_neg e21]
              dsimp only
              exact goodTrace_append_one tr _ htr (fun hb => e21 hb.1)
            · rw [if_neg e12]
              dsimp only
              by_cases e21 : (n2, n1) ∈ edges
              · rw [if_pos e21]
                dsimp only
                exact goodTrace_append_one tr _ htr (fun hb => e12 hb.1)
              · rw [if_neg e21]
                dsimp only
                refine goodTrace_append_one _ _
                  (goodTrace_append_one tr _ htr (fun hb => e12 hb.1)) ?_
                intro hb
                rcases List.mem_append.mp hb.1 with h | h
                · exact e21 h
                · exact hne2 (congrArg Prod.fst (List.mem_singleton.mp h))
          · rw [if_neg hv]
            exact ih edges nb tr hnerem htr

theorem tryComponents_good (env : ConnEnv)
    (hk : ∀ q cc n, n ∈ env.knearest q cc → env.ccOf n = cc) (n1 : Nat) :
    ∀ ccs edges nb tr, goodTrace tr →
      goodTrace (tryComponents env n1 ccs edges nb tr).2.2 := by
  intro ccs
  induction ccs with
  | nil =>
    intro edges nb tr htr
    simpa [tryComponents] using htr
  | cons cc rem ih =>
    intro edges nb tr htr
    unfold tryComponents
    by_cases hcc : cc = env.ccOf n1
    · rw [if_pos hcc]
      exact ih edges nb tr htr
    · rw [if_neg hcc]
      have hne : ∀ n2 ∈ (env.knearest (env.cfgOf n1) cc).take 7, n2 ≠ n1 := by
        intro n2 hmem heq
        have : env.ccOf n2 = cc := hk _ _ _ (List.mem_of_mem_take hmem)
        exact hcc (by rw [← this, heq])
      have hgood := tryCandidates_good env n1
        ((env.knearest (env.cfgOf n1) cc).take 7) edges nb tr hne htr
      rcases hres : tryCandidates env n1
          ((env.knearest (env.cfgOf n1) cc).take 7) edges nb tr
        with ⟨e1, nb1, tr1, b⟩
      rw [hres] at hgood
      cases b with
      | true => simp only [hres]; exact hgood
      | false => simp only [hres]; exact ih e1 nb1 tr1 hgood

theorem tryConnectToRoadmap_good (env : ConnEnv)
    (hk : ∀ q cc n, n ∈ env.knearest q cc → env.ccOf n = cc) :
    ∀ nodes edges nb tr, goodTrace tr →
      goodTrace (tryConnectToRoadmap env nodes edges nb tr).2.2 := by
  intro nodes
  induction nodes with
  | nil =>
    intro edges nb tr htr
    simpa [tryConnectToRoadmap] using htr
  | cons n1 rem ih =>
    intro edges nb tr htr
    unfold tryConnectToRoadmap
    exact ih _ _ _ (tryComponents_good env hk n1 env.ccList edges nb tr htr)

/-- C9: tryConnectToRoadmap never adds a roadmap edge between a pair of nodes
already bidirectionally connected: pairs with both directions present are
skipped (lines 352-357), and on a successful validation only the missing
direction(s) are added (lines 368-374), so every addEdge event finds at least
one direction absent. The hypothesis states that KnearestSearch answers lie in
the queried connected component, which is the roadmap's contract. -/
theorem C9_no_edge_between_biconnected (env : ConnEnv)
    (hk : ∀ q cc n, n ∈ env.knearest q cc → env.ccOf n = cc)
    (nodes : List Nat) (edges : EdgeSet) (nb : Nat) (ev : AddEvent)
    (hev : ev ∈ (tryConnectToRoadmap env nodes edges nb []).2.2) :
    ¬ biconnected ev.pre ev.src ev.dst :=
  tryConnectToRoadmap_good env hk nodes edges nb []
    (fun e he => absurd he (List.not_mem_nil e)) ev hev

/-- Witness for C9: in envConn, connecting new node 0 to component 1 adds the
edge (0, 1) over the empty edge set, and that pair was not bidirectionally
connected. -/
theorem C9_witness : ¬ biconnected ([] : EdgeSet) 0 1 :=
  C9_no_edge_between_biconnected envConn
    (by
      intro q cc n h
      by_cases hc : cc = 1
      · subst hc
        simp [envConn] at h
        subst h
        simp [envConn]
      · simp [envConn, hc] at h)
    [0] [] 0 ⟨[], 0, 1⟩ (by decide)


end HppManip
